import Mathlib

/-!
Verification of the `love` package of hacsoc/golove, a Go client library for
the Yelp Love HTTP API (src/love/love.go).

Shallow embedding: each client method is modelled as a pure function of the
client, its arguments, and the HTTP response the server would give, returning
the (unchanged) client, the list of network effects the method performs, and
its result.  The response body is modelled at the level at which the method
consumes it: `SendLove` reads the raw body text, while `GetLove` and
`Autocomplete` pass the bytes to `json.Unmarshal` expecting a JSON array, so
their body is modelled as the outcome of that top-level parse (`Except` of a
list of JSON items).  A JSON item is either an object all of whose values are
strings (the only shape `map[string]string` accepts) or anything else.
Errors are tagged by the `errors.New` / `fmt.Errorf` site they come from.
-/

/-- Mirrors `Client` (love.go lines 57-60): the API key and base URL. -/
structure Client where
  ApiKey : String
  BaseUrl : String
deriving DecidableEq, Repr

/-- Mirrors `NewClient` (love.go lines 139-144): no validation. -/
def NewClient (ApiKey : String) (BaseUrl : String) : Client :=
  { ApiKey := ApiKey, BaseUrl := BaseUrl }

/-- A parsed calendar time, the part of Go's `time.Time` that
`time.Parse("2006-01-02T15:04:05", s)` determines. -/
structure DateTime where
  year : Nat
  month : Nat
  day : Nat
  hour : Nat
  minute : Nat
  second : Nat
  nanosecond : Nat
deriving DecidableEq, Repr

/-- Mirrors `Love` (love.go lines 65-70). -/
structure Love where
  Sender : String
  Recipient : String
  Message : String
  Timestamp : DateTime
deriving DecidableEq, Repr

/-- Mirrors `User` (love.go lines 110-113). -/
structure User where
  Display : String
  Username : String
deriving DecidableEq, Repr

/-- Read exactly `n` decimal digits, accumulating into `acc`; fails when a
non-digit or the end of input arrives early (Go's fixed-width `getnum`). -/
def readDigits : List Char → Nat → Nat → Option (Nat × List Char)
  | cs, 0, acc => some (acc, cs)
  | [], _ + 1, _ => none
  | c :: cs, n + 1, acc =>
      if c.isDigit then readDigits cs n (acc * 10 + (c.toNat - 48)) else none

/-- Consume one expected literal character. -/
def expectChar (ch : Char) : List Char → Option (List Char)
  | c :: cs => if c = ch then some cs else none
  | [] => none

/-- Go's `getnum` with `fixed = false` (the layout chunk `15` for the hour):
take two digits when the second character is also a digit, otherwise one. -/
def readNum1or2 : List Char → Option (Nat × List Char)
  | c1 :: c2 :: cs =>
      if c1.isDigit then
        if c2.isDigit then some ((c1.toNat - 48) * 10 + (c2.toNat - 48), cs)
        else some (c1.toNat - 48, c2 :: cs)
      else none
  | [c1] => if c1.isDigit then some (c1.toNat - 48, []) else none
  | [] => none

/-- Consume a maximal run of digits, returning its value, its length and the
rest of the input. -/
def spanDigits : List Char → Nat → Nat → Nat × Nat × List Char
  | [], acc, k => (acc, k, [])
  | c :: cs, acc, k =>
      if c.isDigit then spanDigits cs (acc * 10 + (c.toNat - 48)) (k + 1)
      else (acc, k, c :: cs)

/-- Gregorian leap year, as Go's `time` package computes it. -/
def isLeap (y : Nat) : Bool :=
  y % 4 = 0 && (y % 100 ≠ 0 || y % 400 = 0)

/-- Days in a month, as Go's `time` package computes it. -/
def daysIn (m : Nat) (y : Nat) : Nat :=
  if m = 2 then (if isLeap y then 29 else 28)
  else if m = 4 || m = 6 || m = 9 || m = 11 then 30
  else 31

/-- Go's `time.Parse("2006-01-02T15:04:05", s)` (love.go line 97): the year
is four fixed digits and the month, day, minute and second chunks (`01`,
`02`, `04`, `05`) two fixed digits, while the hour chunk `15` accepts one or
two digits (`getnum` unfixed); when parsing, the input may carry a
fractional second right after the seconds even though the layout has none —
a `.` or `,` separator followed by digits, which `parseNanoseconds` rejects
when longer than nine digits and otherwise scales to nanoseconds; any other
leftover text is an error, as is an out-of-range component.  Returns `none`
on any parse error. -/
def timeParse (s : String) : Option DateTime := do
  let cs := s.toList
  let (year, cs) ← readDigits cs 4 0
  let cs ← expectChar '-' cs
  let (month, cs) ← readDigits cs 2 0
  let cs ← expectChar '-' cs
  let (day, cs) ← readDigits cs 2 0
  let cs ← expectChar 'T' cs
  let (hour, cs) ← readNum1or2 cs
  let cs ← expectChar ':' cs
  let (minute, cs) ← readDigits cs 2 0
  let cs ← expectChar ':' cs
  let (second, cs) ← readDigits cs 2 0
  let (nano, cs) ← match cs with
    | [] => some (0, ([] : List Char))
    | c0 :: c :: rest =>
        if (c0 = '.' ∨ c0 = ',') ∧ c.isDigit then
          let (v, k, r) := spanDigits (c :: rest) 0 0
          if k ≤ 9 then some (v * 10 ^ (9 - k), r) else none
        else none
    | _ => none
  if cs = [] ∧ 1 ≤ month ∧ month ≤ 12 ∧ 1 ≤ day ∧ day ≤ daysIn month year
      ∧ hour ≤ 23 ∧ minute ≤ 59 ∧ second ≤ 59 then
    some ⟨year, month, day, hour, minute, second, nano⟩
  else
    none

/-- A JSON value as the two unmarshallers see it: either an object whose
values `json.Unmarshal` maps into `map[string]string` entries (string
values, with a JSON null decoding to the empty string), or any other JSON
value, which fails that unmarshal. -/
inductive JItem where
  | obj (fields : List (String × String))
  | other
deriving DecidableEq, Repr

/-- Lookup in the `map[string]string` that `json.Unmarshal` builds from an
object's fields: a duplicated key keeps its last value. -/
def mapGet (fields : List (String × String)) (k : String) : Option String :=
  match fields with
  | [] => none
  | (k2, v) :: rest =>
      match mapGet rest k with
      | some v2 => some v2
      | none => if k2 = k then some v else none

/-- Mirrors `Love.UnmarshalJSON` (love.go lines 75-105): unmarshal into a
string map, require the four keys, parse the timestamp. -/
def Love.unmarshalJSON : JItem → Except String Love
  | .other => .error "json: cannot unmarshal into map[string]string"
  | .obj dict =>
    match mapGet dict "sender" with
    | none => .error "missing key sender"
    | some sender =>
    match mapGet dict "recipient" with
    | none => .error "missing key recipient"
    | some recipient =>
    match mapGet dict "message" with
    | none => .error "missing key message"
    | some message =>
    match mapGet dict "timestamp" with
    | none => .error "missing key timestamp"
    | some timestamp =>
    match timeParse timestamp with
    | none => .error "invalid timestamp encoding"
    | some t => .ok ⟨sender, recipient, message, t⟩

/-- Mirrors `User.UnmarshalJSON` (love.go lines 119-133): unmarshal into a
string map, require `label` and `value`. -/
def User.unmarshalJSON : JItem → Except String User
  | .other => .error "json: cannot unmarshal into map[string]string"
  | .obj dict =>
    match mapGet dict "label" with
    | none => .error "missing key label"
    | some label =>
    match mapGet dict "value" with
    | none => .error "missing key value"
    | some value => .ok ⟨label, value⟩

/-- `json.Unmarshal` of a JSON array into a slice of unmarshallable values:
elements decode in order and the first element error aborts the whole
unmarshal. -/
def unmarshalList {α : Type} (f : JItem → Except String α) :
    List JItem → Except String (List α)
  | [] => .ok []
  | it :: rest =>
    match f it with
    | .error e => .error e
    | .ok a =>
      match unmarshalList f rest with
      | .error e => .error e
      | .ok as => .ok (a :: as)

/-- A network effect performed by a client method.  Query and form parameters
are recorded at the decoded `url.Values` level (the wire carries them
percent-encoded and key-sorted by `Values.Encode`/`PostForm`). -/
inductive Effect where
  | httpGet (url : String) (query : List (String × String))
  | httpPostForm (url : String) (form : List (String × String))
deriving DecidableEq, Repr

/-- The HTTP response the server would answer with.  `Status` is Go's status
line text (`resp.Status`), `StatusCode` the numeric code.  `Body` is `none`
when reading the body fails (`ioutil.ReadAll` error), otherwise the body as
the calling method consumes it (raw text, or the result of the top-level
JSON-array parse). -/
structure Response (β : Type) where
  StatusCode : Nat
  Status : String
  Body : Option β
deriving Repr

/-- The error values the client methods return, tagged by the `errors.New` /
`fmt.Errorf` site producing them. -/
inductive GoError where
  | invalidArgument (msg : String)
  | apiError (status : String)
  | decodeError (msg : String)
  | readError
deriving DecidableEq, Repr

/-- Mirrors the `love` package constant (love.go line 46). -/
def loveGetStatusCode : Nat := 200

/-- Mirrors the `love` package constant (love.go line 47). -/
def loveCreatedStatusCode : Nat := 201

/-- The `url.Values` built by `Client.GetLove` (love.go lines 162-172):
`api_key` always, `sender`/`recipient` only when non-empty, `limit` only when
positive, decimal-encoded by `strconv.FormatInt(limit, 10)`. -/
def getLoveValues (c : Client) (fromU : String) (toU : String) (limit : Int) :
    List (String × String) :=
  [("api_key", c.ApiKey)]
    ++ (if fromU ≠ "" then [("sender", fromU)] else [])
    ++ (if toU ≠ "" then [("recipient", toU)] else [])
    ++ (if limit > 0 then [("limit", toString limit)] else [])

/-- Mirrors `Client.GetLove` (love.go lines 154-188).  `fromU`/`toU` stand
for the Go parameters `from`/`to` (`from` is reserved in Lean); the Go
`limit` is an `int64`, modelled as `Int`.  Returns the client after the
call, the effects performed, and the result. -/
def Client.GetLove (c : Client) (fromU : String) (toU : String) (limit : Int)
    (resp : Response (Except String (List JItem))) :
    Client × List Effect × Except GoError (List Love) :=
  if fromU = "" ∧ toU = "" then
    (c, [], .error (.invalidArgument "Must specify at least one of `from` and `to`"))
  else
    let effs := [Effect.httpGet (c.BaseUrl ++ "/love") (getLoveValues c fromU toU limit)]
    if resp.StatusCode ≠ 200 then
      (c, effs, .error (.apiError resp.Status))
    else
      match resp.Body with
      | none => (c, effs, .error .readError)
      | some (.error e) => (c, effs, .error (.decodeError e))
      | some (.ok items) =>
        match unmarshalList Love.unmarshalJSON items with
        | .error e => (c, effs, .error (.decodeError e))
        | .ok loves => (c, effs, .ok loves)

/-- Mirrors `Client.SendLove` (love.go lines 195-216): always posts the four
form fields; on a non-201 status, reads the body and wraps it in
`"Love API Error: %s"`, or returns the read error when the body is
unreadable; on 201 returns success without touching the body. -/
def Client.SendLove (c : Client) (fromU : String) (toU : String)
    (message : String) (resp : Response String) :
    Client × List Effect × Option GoError :=
  let values : List (String × String) :=
    [("api_key", c.ApiKey), ("sender", fromU), ("recipient", toU),
     ("message", message)]
  let effs := [Effect.httpPostForm (c.BaseUrl ++ "/love") values]
  if resp.StatusCode ≠ loveCreatedStatusCode then
    match resp.Body with
    | none => (c, effs, some .readError)
    | some body => (c, effs, some (.apiError ("Love API Error: " ++ body)))
  else
    (c, effs, none)

/-- Mirrors `Client.SendLoves` (love.go lines 222-224): join the recipients
(Go parameter `to`, here `toUs`) with commas (`strings.Join`) and delegate to
`SendLove`. -/
def Client.SendLoves (c : Client) (fromU : String) (toUs : List String)
    (message : String) (resp : Response String) :
    Client × List Effect × Option GoError :=
  c.SendLove fromU (String.intercalate "," toUs) message resp

/-- Mirrors `Client.Autocomplete` (love.go lines 230-253). -/
def Client.Autocomplete (c : Client) (term : String)
    (resp : Response (Except String (List JItem))) :
    Client × List Effect × Except GoError (List User) :=
  let values : List (String × String) :=
    [("api_key", c.ApiKey), ("term", term)]
  let effs := [Effect.httpGet (c.BaseUrl ++ "/autocomplete") values]
  if resp.StatusCode ≠ loveGetStatusCode then
    (c, effs, .error (.apiError resp.Status))
  else
    match resp.Body with
    | none => (c, effs, .error .readError)
    | some (.error e) => (c, effs, .error (.decodeError e))
    | some (.ok items) =>
      match unmarshalList User.unmarshalJSON items with
      | .error e => (c, effs, .error (.decodeError e))
      | .ok users => (c, effs, .ok users)

/-! ## Helper lemmas -/

/-- If one item in a JSON array fails to unmarshal, the whole array does. -/
lemma unmarshalList_error_of_mem {α : Type} (f : JItem → Except String α)
    (it : JItem) (items : List JItem) (hmem : it ∈ items)
    (hbad : ∃ e, f it = .error e) :
    ∃ e, unmarshalList f items = .error e := by
  induction items with
  | nil => cases hmem
  | cons a rest ih =>
    cases hfa : f a with
    | error e => exact ⟨e, by simp [unmarshalList, hfa]⟩
    | ok x =>
      rcases List.mem_cons.mp hmem with rfl | hmem2
      · obtain ⟨e, he⟩ := hbad
        rw [hfa] at he
        cases he
      · obtain ⟨e, he⟩ := ih hmem2
        exact ⟨e, by simp [unmarshalList, hfa, he]⟩

/-- A message object missing one of the four required keys, or carrying an
unparsable timestamp, fails to unmarshal. -/
lemma love_unmarshal_error_cases (fields : List (String × String))
    (hbad : mapGet fields "sender" = none ∨ mapGet fields "recipient" = none
      ∨ mapGet fields "message" = none ∨ mapGet fields "timestamp" = none
      ∨ ∃ ts, mapGet fields "timestamp" = some ts ∧ timeParse ts = none) :
    ∃ e, Love.unmarshalJSON (.obj fields) = .error e := by
  cases hs : mapGet fields "sender" with
  | none => exact ⟨"missing key sender", by simp [Love.unmarshalJSON, hs]⟩
  | some s =>
  cases hr : mapGet fields "recipient" with
  | none => exact ⟨"missing key recipient", by simp [Love.unmarshalJSON, hs, hr]⟩
  | some r =>
  cases hm : mapGet fields "message" with
  | none => exact ⟨"missing key message", by simp [Love.unmarshalJSON, hs, hr, hm]⟩
  | some m =>
  cases ht : mapGet fields "timestamp" with
  | none => exact ⟨"missing key timestamp", by simp [Love.unmarshalJSON, hs, hr, hm, ht]⟩
  | some ts2 =>
    rcases hbad with h | h | h | h | ⟨ts, hts, hp⟩
    · rw [hs] at h; cases h
    · rw [hr] at h; cases h
    · rw [hm] at h; cases h
    · rw [ht] at h; cases h
    · rw [ht] at hts
      have hts2 : ts2 = ts := Option.some.inj hts
      subst hts2
      exact ⟨"invalid timestamp encoding", by simp [Love.unmarshalJSON, hs, hr, hm, ht, hp]⟩

/-! ## Claims -/

/-- C2: for every limit value, `GetLove("", "", n)` returns a nil result and
an `InvalidArgument` error, before making any network call: the effect list
is empty and the client is unchanged. -/
theorem getLove_both_empty_invalid_argument (c : Client) (limit : Int)
    (resp : Response (Except String (List JItem))) :
    c.GetLove "" "" limit resp
      = (c, [],
         .error (.invalidArgument "Must specify at least one of `from` and `to`")) := by
  simp [Client.GetLove]

/-- C5: `SendLove` returns nil exactly when the response status is 201; any
other status yields a non-nil error carrying the body text when the body is
readable; a body-read failure alone never turns a 201 into a failure, and on
a non-201 status with an unreadable body the call still returns a non-nil
error (the read error). -/
theorem sendLove_success_iff_created (c : Client)
    (fromU toU message : String) (resp : Response String) :
    ((c.SendLove fromU toU message resp).2.2 = none ↔ resp.StatusCode = 201)
    ∧ (∀ b, resp.StatusCode ≠ 201 → resp.Body = some b →
        (c.SendLove fromU toU message resp).2.2
          = some (.apiError ("Love API Error: " ++ b)))
    ∧ (resp.StatusCode ≠ 201 → resp.Body = none →
        (c.SendLove fromU toU message resp).2.2 = some .readError)
    ∧ (resp.StatusCode = 201 →
        (c.SendLove fromU toU message resp).2.2 = none) := by
  obtain ⟨code, st, body⟩ := resp
  by_cases hc : code = 201
  · subst hc
    simp [Client.SendLove, loveCreatedStatusCode]
  · cases body with
    | none => simp [Client.SendLove, loveCreatedStatusCode, hc]
    | some b => simp [Client.SendLove, loveCreatedStatusCode, hc]

/-- C5 witness: a 422 response with readable body `"no"` yields the API
error wrapping the body. -/
theorem sendLove_success_iff_created_witness :
    ((NewClient "k" "https://example.com/api").SendLove "hammy" "darwin"
        "msg" ⟨422, "422 Unprocessable Entity", some "no"⟩).2.2
      = some (.apiError ("Love API Error: " ++ "no")) :=
  (sendLove_success_iff_created (NewClient "k" "https://example.com/api")
      "hammy" "darwin" "msg"
      ⟨422, "422 Unprocessable Entity", some "no"⟩).2.1 "no"
    (by decide) rfl

/-- C6: `SendLoves(sender, recipients, message)` behaves identically to
`SendLove(sender, join(recipients, ","), message)` — same wire request and
same result — and an empty recipient sequence yields an empty-string
`recipient` form field. -/
theorem sendLoves_delegates_to_sendLove (c : Client) (fromU : String)
    (toUs : List String) (message : String) (resp : Response String) :
    c.SendLoves fromU toUs message resp
      = c.SendLove fromU (String.intercalate "," toUs) message resp
    ∧ (∀ resp2 : Response String,
        (c.SendLoves fromU [] message resp2).2.1
          = [Effect.httpPostForm (c.BaseUrl ++ "/love")
              [("api_key", c.ApiKey), ("sender", fromU), ("recipient", ""),
               ("message", message)]]) := by
  constructor
  · rfl
  · intro resp2
    have hjoin : String.intercalate "," ([] : List String) = "" := rfl
    simp only [Client.SendLoves, hjoin, Client.SendLove]
    split
    · split <;> rfl
    · rfl

/-- C9: no operation (`GetLove`, `SendLove`, `SendLoves`, `Autocomplete`)
modifies the client: after any call, on any input and with any response, the
`ApiKey` and `BaseUrl` fields equal their values at construction. -/
theorem client_fields_unchanged (c : Client) (a b m term : String)
    (toUs : List String) (limit : Int)
    (r1 r4 : Response (Except String (List JItem))) (r2 r3 : Response String) :
    ((c.GetLove a b limit r1).1.ApiKey = c.ApiKey
      ∧ (c.GetLove a b limit r1).1.BaseUrl = c.BaseUrl)
    ∧ ((c.SendLove a b m r2).1.ApiKey = c.ApiKey
      ∧ (c.SendLove a b m r2).1.BaseUrl = c.BaseUrl)
    ∧ ((c.SendLoves a toUs m r3).1.ApiKey = c.ApiKey
      ∧ (c.SendLoves a toUs m r3).1.BaseUrl = c.BaseUrl)
    ∧ ((c.Autocomplete term r4).1.ApiKey = c.ApiKey
      ∧ (c.Autocomplete term r4).1.BaseUrl = c.BaseUrl) := by
  have h1 : (c.GetLove a b limit r1).1 = c := by
    unfold Client.GetLove
    split
    · rfl
    · split
      · rfl
      · split <;> try rfl
        split <;> rfl
  have h2 : (c.SendLove a b m r2).1 = c := by
    unfold Client.SendLove
    split
    · split <;> rfl
    · rfl
  have h3 : (c.SendLoves a toUs m r3).1 = c := by
    unfold Client.SendLoves Client.SendLove
    split
    · split <;> rfl
    · rfl
  have h4 : (c.Autocomplete term r4).1 = c := by
    unfold Client.Autocomplete
    split
    · rfl
    · split <;> try rfl
      split <;> rfl
  exact ⟨⟨by rw [h1], by rw [h1]⟩, ⟨by rw [h2], by rw [h2]⟩,
    ⟨by rw [h3], by rw [h3]⟩, ⟨by rw [h4], by rw [h4]⟩⟩

/-- C1: with at least one of `from`/`to` non-empty, `GetLove` issues exactly
one HTTP GET to `{BaseUrl}/love` whose query parameters are exactly
`api_key` (always), `sender` (iff `from` non-empty), `recipient` (iff `to`
non-empty) and `limit` (iff positive, in decimal) — no extras, no
omissions. -/
theorem getLove_issues_single_get_with_exact_params (c : Client)
    (fromU toU : String) (limit : Int)
    (resp : Response (Except String (List JItem)))
    (h : fromU ≠ "" ∨ toU ≠ "") :
    ∃ q, (c.GetLove fromU toU limit resp).2.1
        = [Effect.httpGet (c.BaseUrl ++ "/love") q]
      ∧ mapGet q "api_key" = some c.ApiKey
      ∧ mapGet q "sender" = (if fromU = "" then none else some fromU)
      ∧ mapGet q "recipient" = (if toU = "" then none else some toU)
      ∧ mapGet q "limit" = (if limit > 0 then some (toString limit) else none)
      ∧ ∀ k, k ≠ "api_key" → k ≠ "sender" → k ≠ "recipient" → k ≠ "limit" →
          mapGet q k = none := by
  have hcond : ¬(fromU = "" ∧ toU = "") := by tauto
  refine ⟨getLoveValues c fromU toU limit, ?_, ?_, ?_, ?_, ?_, ?_⟩
  · simp only [Client.GetLove, if_neg hcond]
    split
    · rfl
    · split <;> try rfl
      split <;> rfl
  · unfold getLoveValues
    split_ifs <;> simp +decide [mapGet]
  · unfold getLoveValues
    split_ifs <;> simp +decide [mapGet] <;> tauto
  · unfold getLoveValues
    split_ifs <;> simp +decide [mapGet] <;> tauto
  · unfold getLoveValues
    split_ifs <;> simp +decide [mapGet]
  · intro k h1 h2 h3 h4
    unfold getLoveValues
    split_ifs <;>
      simp [mapGet, Ne.symm h1, Ne.symm h2, Ne.symm h3, Ne.symm h4]

/-- C1 witness: `GetLove("hammy", "", 20)` issues one GET whose parameters
are exactly `api_key`, `sender` and `limit`. -/
theorem getLove_issues_single_get_with_exact_params_witness :
    ("hammy" : String) ≠ "" ∧
    (∃ q, ((NewClient "abcdefg" "https://example.com/api").GetLove "hammy" ""
            20 ⟨200, "200 OK", some (.ok [])⟩).2.1
        = [Effect.httpGet
            ((NewClient "abcdefg" "https://example.com/api").BaseUrl ++ "/love") q]
      ∧ mapGet q "api_key"
          = some (NewClient "abcdefg" "https://example.com/api").ApiKey
      ∧ mapGet q "sender" = (if ("hammy" : String) = "" then none else some "hammy")
      ∧ mapGet q "recipient" = (if ("" : String) = "" then none else some "")
      ∧ mapGet q "limit"
          = (if (20 : Int) > 0 then some (toString (20 : Int)) else none)
      ∧ ∀ k, k ≠ "api_key" → k ≠ "sender" → k ≠ "recipient" → k ≠ "limit" →
          mapGet q k = none) :=
  ⟨by decide,
    getLove_issues_single_get_with_exact_params
      (NewClient "abcdefg" "https://example.com/api") "hammy" "" 20
      ⟨200, "200 OK", some (.ok [])⟩ (Or.inl (by decide))⟩

/-- C3: on a 200 response whose JSON array contains a message object missing
one of `sender`, `recipient`, `message`, `timestamp` (or with an unparsable
timestamp), the whole `GetLove` call returns a `DecodeError` and no partial
sequence. -/
theorem getLove_decode_failure_aborts_whole_call (c : Client)
    (fromU toU : String) (limit : Int) (st : String)
    (items : List JItem) (fields : List (String × String))
    (hne : fromU ≠ "" ∨ toU ≠ "")
    (hmem : JItem.obj fields ∈ items)
    (hbad : mapGet fields "sender" = none ∨ mapGet fields "recipient" = none
      ∨ mapGet fields "message" = none ∨ mapGet fields "timestamp" = none
      ∨ ∃ ts, mapGet fields "timestamp" = some ts ∧ timeParse ts = none) :
    ∃ msg, (c.GetLove fromU toU limit ⟨200, st, some (.ok items)⟩).2.2
      = .error (.decodeError msg) := by
  obtain ⟨e, he⟩ := unmarshalList_error_of_mem Love.unmarshalJSON _ items hmem
    (love_unmarshal_error_cases fields hbad)
  have hcond : ¬(fromU = "" ∧ toU = "") := by tauto
  exact ⟨e, by simp [Client.GetLove, hcond, he]⟩

/-- C3 witness: a 200 response with one message object missing `recipient`
makes the whole call fail with a decode error. -/
theorem getLove_decode_failure_aborts_whole_call_witness :
    ∃ msg, ((NewClient "abcdefg" "https://example.com/api").GetLove "hammy" ""
        20 ⟨200, "200 OK",
          some (.ok [JItem.obj [("sender", "hammy")]])⟩).2.2
      = .error (.decodeError msg) :=
  getLove_decode_failure_aborts_whole_call
    (NewClient "abcdefg" "https://example.com/api") "hammy" "" 20 "200 OK"
    [JItem.obj [("sender", "hammy")]] [("sender", "hammy")]
    (Or.inl (by decide)) (by decide) (Or.inr (Or.inl rfl))

/-- C4: timestamp decoding accepts both the fractional-seconds form and the
whole-seconds form, yielding the correct calendar time, and a string that
fails to parse as a timestamp makes the message decode fail rather than
yield a default value. -/
theorem love_timestamp_formats :
    timeParse "2000-01-01T01:01:01.552636"
      = some ⟨2000, 1, 1, 1, 1, 1, 552636000⟩
    ∧ timeParse "2000-02-01T01:01:01" = some ⟨2000, 2, 1, 1, 1, 1, 0⟩
    ∧ (∀ fields ts, mapGet fields "timestamp" = some ts → timeParse ts = none →
        ∃ msg, Love.unmarshalJSON (.obj fields) = .error msg) := by
  refine ⟨by decide, by decide, ?_⟩
  intro fields ts hts hp
  exact love_unmarshal_error_cases fields
    (Or.inr (Or.inr (Or.inr (Or.inr ⟨ts, hts, hp⟩))))

/-- C4 witness: an object whose `timestamp` does not parse fails to
decode. -/
theorem love_timestamp_formats_witness :
    ∃ msg, Love.unmarshalJSON (.obj [("timestamp", "not-a-time")])
      = .error msg :=
  love_timestamp_formats.2.2 [("timestamp", "not-a-time")] "not-a-time" rfl
    (by decide)

/-- C7: on any non-200 response — whatever the body, readable or not —
`GetLove` and `Autocomplete` return no result and an `ApiError` carrying the
response's status text, without decoding the body. -/
theorem non200_returns_apiError (c : Client) (fromU toU term : String)
    (limit : Int) (respG respA : Response (Except String (List JItem)))
    (hne : fromU ≠ "" ∨ toU ≠ "")
    (hG : respG.StatusCode ≠ 200) (hA : respA.StatusCode ≠ 200) :
    (c.GetLove fromU toU limit respG).2.2 = .error (.apiError respG.Status)
    ∧ (c.Autocomplete term respA).2.2 = .error (.apiError respA.Status) := by
  have hcond : ¬(fromU = "" ∧ toU = "") := by tauto
  constructor
  · simp [Client.GetLove, hcond, hG]
  · simp [Client.Autocomplete, loveGetStatusCode, hA]

/-- C7 witness: a 418 response with an undecodable body yields the
`ApiError` with the status text for both operations. -/
theorem non200_returns_apiError_witness :
    ((NewClient "abcdefg" "https://example.com/api").GetLove "hammy" "" 0
        ⟨418, "418 I am a teapot", some (.error "not json")⟩).2.2
      = .error (.apiError "418 I am a teapot")
    ∧ ((NewClient "abcdefg" "https://example.com/api").Autocomplete "ha"
        ⟨418, "418 I am a teapot", none⟩).2.2
      = .error (.apiError "418 I am a teapot") :=
  non200_returns_apiError (NewClient "abcdefg" "https://example.com/api")
    "hammy" "" "ha" 0 ⟨418, "418 I am a teapot", some (.error "not json")⟩
    ⟨418, "418 I am a teapot", none⟩ (Or.inl (by decide)) (by decide)
    (by decide)

/-- C8: `Autocomplete(term)` issues a GET to `{BaseUrl}/autocomplete` with
exactly the parameters `api_key` and `term`; a 200 body decoding as a JSON
array of objects is mapped elementwise, an object with keys `label` and
`value` decoding to a `User` with `Display = label`, `Username = value`,
and either key missing failing the decode. -/
theorem autocomplete_request_and_decode (c : Client) (term : String)
    (resp : Response (Except String (List JItem))) :
    ((c.Autocomplete term resp).2.1
        = [Effect.httpGet (c.BaseUrl ++ "/autocomplete")
            [("api_key", c.ApiKey), ("term", term)]]
      ∧ mapGet [("api_key", c.ApiKey), ("term", term)] "api_key"
          = some c.ApiKey
      ∧ mapGet [("api_key", c.ApiKey), ("term", term)] "term" = some term
      ∧ (∀ k, k ≠ "api_key" → k ≠ "term" →
          mapGet [("api_key", c.ApiKey), ("term", term)] k = none))
    ∧ (∀ items users, resp.StatusCode = 200 → resp.Body = some (.ok items) →
        unmarshalList User.unmarshalJSON items = .ok users →
        (c.Autocomplete term resp).2.2 = .ok users)
    ∧ (∀ fields label value, mapGet fields "label" = some label →
        mapGet fields "value" = some value →
        User.unmarshalJSON (.obj fields) = .ok ⟨label, value⟩)
    ∧ (∀ fields, mapGet fields "label" = none ∨ mapGet fields "value" = none →
        ∃ msg, User.unmarshalJSON (.obj fields) = .error msg) := by
  refine ⟨⟨?_, by simp [mapGet], by simp [mapGet], ?_⟩, ?_, ?_, ?_⟩
  · unfold Client.Autocomplete
    split
    · rfl
    · split <;> try rfl
      split <;> rfl
  · intro k h1 h2
    simp [mapGet, Ne.symm h1, Ne.symm h2]
  · intro items users h200 hbody hdec
    obtain ⟨code, st, body⟩ := resp
    simp only at h200 hbody
    subst h200
    subst hbody
    simp [Client.Autocomplete, loveGetStatusCode, hdec]
  · intro fields label value hl hv
    simp [User.unmarshalJSON, hl, hv]
  · intro fields h
    cases hl : mapGet fields "label" with
    | none => exact ⟨"missing key label", by simp [User.unmarshalJSON, hl]⟩
    | some l =>
      cases hv : mapGet fields "value" with
      | none =>
        exact ⟨"missing key value", by simp [User.unmarshalJSON, hl, hv]⟩
      | some v =>
        rcases h with h | h
        · rw [hl] at h; cases h
        · rw [hv] at h; cases h

/-- C8 witness: against `[{"label":"label","value":"value"}]` on a 200,
`Autocomplete("ha")` returns the one suggestion `⟨"label", "value"⟩`. -/
theorem autocomplete_request_and_decode_witness :
    ((NewClient "abcdefg" "https://example.com/api").Autocomplete "ha"
        ⟨200, "200 OK",
          some (.ok [JItem.obj [("label", "label"), ("value", "value")]])⟩).2.2
      = .ok [⟨"label", "value"⟩] :=
  (autocomplete_request_and_decode
      (NewClient "abcdefg" "https://example.com/api") "ha"
      ⟨200, "200 OK",
        some (.ok [JItem.obj [("label", "label"), ("value", "value")]])⟩).2.1
    [JItem.obj [("label", "label"), ("value", "value")]]
    [⟨"label", "value"⟩] rfl rfl rfl

/-- C10: decoding never fails because of extra keys: any string-valued JSON
object containing the required keys (with a parsable timestamp for a
message) decodes successfully, whatever other keys are present. -/
theorem unmarshal_ignores_extra_keys :
    (∀ fields s r m ts t, mapGet fields "sender" = some s →
        mapGet fields "recipient" = some r → mapGet fields "message" = some m →
        mapGet fields "timestamp" = some ts → timeParse ts = some t →
        Love.unmarshalJSON (.obj fields) = .ok ⟨s, r, m, t⟩)
    ∧ (∀ fields l v, mapGet fields "label" = some l →
        mapGet fields "value" = some v →
        User.unmarshalJSON (.obj fields) = .ok ⟨l, v⟩) := by
  constructor
  · intro fields s r m ts t hs hr hm ht hp
    simp [Love.unmarshalJSON, hs, hr, hm, ht, hp]
  · intro fields l v hl hv
    simp [User.unmarshalJSON, hl, hv]

/-- C10 witness: an object with all four message keys plus an extra key
decodes, ignoring the extra key. -/
theorem unmarshal_ignores_extra_keys_witness :
    Love.unmarshalJSON (.obj [("sender", "hammy"), ("recipient", "darwin"),
        ("message", "message"), ("timestamp", "2000-01-01T01:01:01"),
        ("extra", "zzz")])
      = .ok ⟨"hammy", "darwin", "message", ⟨2000, 1, 1, 1, 1, 1, 0⟩⟩ :=
  unmarshal_ignores_extra_keys.1
    [("sender", "hammy"), ("recipient", "darwin"), ("message", "message"),
     ("timestamp", "2000-01-01T01:01:01"), ("extra", "zzz")]
    "hammy" "darwin" "message" "2000-01-01T01:01:01" ⟨2000, 1, 1, 1, 1, 1, 0⟩
    rfl rfl rfl rfl (by decide)
